import Mathlib

/-!
Verification of the pystow directory-resolution and ensure-or-fetch layer.

The Python code is shallowly embedded: a filesystem is an explicit state
(a list of existing directories and an association list of files with their
contents), paths are lists of string components, and every operation of
`pystow.impl.Module` and `pystow.api` is a pure Lean function threading the
filesystem state.  Network transfer, JSON/pickle serialisation and the
pandas/rdflib readers are external libraries in the original program; they
enter the model as function parameters.  Utility helpers that live in
`pystow/utils.py` (not part of the sources at hand) are modelled from the
specification and marked as such in their doc comments.
-/

namespace Pystow

/-- A filesystem path, as a list of components from the root. -/
abbrev FsPath := List String

/-- The filesystem state: the set of directories that exist and an
association list from file paths to file contents. -/
structure FS where
  dirs : List FsPath
  files : List (FsPath × String)
deriving DecidableEq

/-- Look a path up in an association list of files. -/
def getFileAux : List (FsPath × String) → FsPath → Option String
  | [], _ => none
  | (q, c) :: rest, p => if q = p then some c else getFileAux rest p

/-- Content of the file at `p`, if it exists. -/
def FS.getFile (fs : FS) (p : FsPath) : Option String :=
  getFileAux fs.files p

/-- Does a file exist at `p`? -/
def FS.isFile (fs : FS) (p : FsPath) : Bool :=
  (fs.getFile p).isSome

/-- Does a directory exist at `p`? -/
def FS.isDir (fs : FS) (p : FsPath) : Bool :=
  fs.dirs.contains p

/-- Write a file: replace the binding at `p` or add one. -/
def setFileAux : List (FsPath × String) → FsPath → String → List (FsPath × String)
  | [], p, c => [(p, c)]
  | (q, d) :: rest, p, c => if q = p then (p, c) :: rest else (q, d) :: setFileAux rest p c

/-- Write the file at `p`, overwriting previous content. -/
def FS.setFile (fs : FS) (p : FsPath) (c : String) : FS :=
  { fs with files := setFileAux fs.files p c }

/-- All nonempty initial segments of a path: the directory levels along it. -/
def initSegsOf (p : FsPath) : List FsPath :=
  (List.range p.length).map (fun i => p.take (i + 1))

/-- Add a directory if it is not already present. -/
def addDir (ds : List FsPath) (q : FsPath) : List FsPath :=
  if q ∈ ds then ds else ds ++ [q]

/-- Create every directory level along `p`, like `mkdir(parents=True, exist_ok=True)`. -/
def FS.mkdirAll (fs : FS) (p : FsPath) : FS :=
  { fs with dirs := (initSegsOf p).foldl addDir fs.dirs }

/-- Modelled from the spec: `pystow.utils.mkdir` (not among the sources).
When `ensureExists` is true every directory level along the path is created
if missing, idempotently; when false nothing happens. -/
def mkdir (fs : FS) (p : FsPath) (ensureExists : Bool) : FS :=
  if ensureExists then fs.mkdirAll p else fs

/-- The process environment, an association list from variable names to values. -/
abbrev Env := List (String × String)

/-- Look up an environment variable. -/
def envLookup : Env → String → Option String
  | [], _ => none
  | (k, v) :: rest, q => if k = q then some v else envLookup rest q

/-- Set an environment variable. -/
def envSet (env : Env) (k v : String) : Env :=
  (k, v) :: env

/-- Unset an environment variable. -/
def envUnset : Env → String → Env
  | [], _ => []
  | (k, v) :: rest, q => if k = q then envUnset rest q else (k, v) :: envUnset rest q

/-- Split a list of characters on a separator character, like Python's
`str.split` with a one-character separator. -/
def splitOnChar (c : Char) (l : List Char) : List (List Char) :=
  l.foldr
    (fun x acc =>
      match acc with
      | [] => [[x]]
      | g :: gs => if x = c then [] :: g :: gs else (x :: g) :: gs)
    [[]]

/-- Split a string on a separator character. -/
def strSplit (c : Char) (s : String) : List String :=
  (splitOnChar c s.data).map (fun l => ⟨l⟩)

/-- Uppercase a string (ASCII), like Python's `str.upper` on module keys. -/
def upper (s : String) : String :=
  ⟨s.data.map Char.toUpper⟩

/-- Interpret an environment-variable value as a path. -/
def pathFromString (s : String) : FsPath :=
  strSplit '/' s

/-- The name of the process-wide home override variable. -/
def pystowHomeEnvvar : String := "PYSTOW_HOME"

/-- The name of the default-module-name variable. -/
def pystowNameEnvvar : String := "PYSTOW_NAME"

/-- The user's home directory, the anchor of the built-in default location. -/
def userHome : FsPath := ["~"]

/-- Modelled from the spec: `pystow.utils.get_name` (not among the sources).
The default module name from the name variable, else a built-in default. -/
def get_name (env : Env) : String :=
  (envLookup env pystowNameEnvvar).getD "data"

/-- Modelled from the spec: `pystow.utils.get_home` (not among the sources).
The process-wide default home directory: the home override variable when
set, else a fixed dot-directory under the user's home. -/
def get_home (env : Env) : FsPath :=
  match envLookup env pystowHomeEnvvar with
  | some s => pathFromString s
  | none => userHome ++ ["." ++ get_name env]

/-- Modelled from the spec: `pystow.utils.get_base` (not among the sources).
The root for `key` is the value of the envvar named by upper-casing the key
and appending `_HOME` when set, else the key's directory under the
process-wide default home (the documented layout is
`home / key / subkey... / name`). -/
def get_base (env : Env) (key : String) : FsPath :=
  match envLookup env (upper key ++ "_HOME") with
  | some s => pathFromString s
  | none => get_home env ++ [key]

/-- Append an optional file name to a directory path.  Mirrors the Python
truthiness test `if name:`: `None` and the empty string are both skipped
(which agrees with `pathlib` dropping empty segments on join). -/
def joinName (p : FsPath) (name : Option String) : FsPath :=
  match name with
  | none => p
  | some n => if n = "" then p else p ++ [n]

/-- A pystow module: a directory-scoped handle holding its base path. -/
structure Module where
  base : FsPath
deriving DecidableEq

/-- `Module.__init__`: record the base path and create it if requested. -/
def Module.init (fs : FS) (base : FsPath) (ensureExists : Bool) : Module × FS :=
  (⟨base⟩, mkdir fs base ensureExists)

/-- `Module.join`: resolve a subdirectory (and optional file name) of the
module, creating the subdirectory levels when `ensureExists` is true and
subkeys were given. -/
def Module.join (m : Module) (fs : FS) (subkeys : List String)
    (name : Option String) (ensureExists : Bool) : FsPath × FS :=
  if subkeys.isEmpty then (joinName m.base name, fs)
  else (joinName (m.base ++ subkeys) name, mkdir fs (m.base ++ subkeys) ensureExists)

/-- `Module.module`: a module for a subdirectory of the current module. -/
def Module.module (m : Module) (fs : FS) (subkeys : List String)
    (ensureExists : Bool) : Module × FS :=
  let bfs := m.join fs subkeys none false
  Module.init bfs.2 bfs.1 ensureExists

/-- `Module.from_key`: resolve the root for `key` from the environment and
descend into the given subkeys. -/
def Module.from_key (env : Env) (fs : FS) (key : String) (subkeys : List String)
    (ensureExists : Bool) : Module × FS :=
  let rv := Module.init fs (get_base env key) ensureExists
  if subkeys.isEmpty then rv
  else Module.module rv.1 rv.2 subkeys ensureExists

/-- `pystow.api.join`: a module for `key`, then `Module.join` on it. -/
def apiJoin (env : Env) (fs : FS) (key : String) (subkeys : List String)
    (name : Option String) (ensureExists : Bool) : FsPath × FS :=
  let mfs := Module.from_key env fs key [] ensureExists
  Module.join mfs.1 mfs.2 subkeys name ensureExists

/-- Modelled from the spec: `pystow.utils.name_from_url` (not among the
sources).  The file name is the final path segment of the URL. -/
def name_from_url (url : String) : String :=
  (strSplit '/' url).getLastD ""

/-- Modelled from the spec: `pystow.utils.name_from_s3_key` (not among the
sources).  The file name is the final path segment of the S3 key. -/
def name_from_s3_key (key : String) : String :=
  (strSplit '/' key).getLastD ""

/-- Modelled from the spec: `pystow.utils.download` (not among the sources).
If the target path exists and `force` is false the fetch is skipped;
otherwise the resource is fetched and written to the target path,
overwriting any previous content.  The second component counts the fetches
performed (zero or one). -/
def download (fs : FS) (remote : String → String) (url : String)
    (path : FsPath) (force : Bool) : FS × Nat :=
  if fs.isFile path && !force then (fs, 0)
  else (fs.setFile path (remote url), 1)

/-- The outcome of an ensure-or-fetch call: the target path, the resulting
filesystem, and how many fetches were performed. -/
structure EnsureResult where
  path : FsPath
  fs : FS
  fetched : Nat
deriving DecidableEq

/-- `Module.ensure`: derive the file name from the URL when none is given,
resolve the target path (creating directories), and download if needed. -/
def Module.ensure (m : Module) (fs : FS) (remote : String → String)
    (subkeys : List String) (url : String) (name : Option String)
    (force : Bool) : EnsureResult :=
  let n := name.getD (name_from_url url)
  let pfs := m.join fs subkeys (some n) true
  let dl := download pfs.2 remote url pfs.1 force
  ⟨pfs.1, dl.1, dl.2⟩

/-- An S3 key is either a plain string or a sequence of segments. -/
def normS3Key : String ⊕ List String → String
  | .inl s => s
  | .inr segs => String.intercalate "/" segs

/-- `Module.ensure_from_s3`: join a sequence-valued key with a slash,
derive the file name from the key's tail when none is given, resolve the
target path and download from object storage if needed (the skip-if-present
logic of `pystow.utils.download_from_s3` is modelled from the spec). -/
def Module.ensure_from_s3 (m : Module) (fs : FS) (s3get : String → String → String)
    (subkeys : List String) (s3_bucket : String) (s3_key : String ⊕ List String)
    (name : Option String) (force : Bool) : EnsureResult :=
  let key := normS3Key s3_key
  let n := name.getD (name_from_s3_key key)
  let pfs := m.join fs subkeys (some n) true
  if pfs.2.isFile pfs.1 && !force then ⟨pfs.1, pfs.2, 0⟩
  else ⟨pfs.1, pfs.2.setFile pfs.1 (s3get s3_bucket key), 1⟩

/-- Python `str.split` on a single dot. -/
def splitDots (l : List Char) : List (List Char) :=
  splitOnChar '.' l

/-- Python `pathlib.PurePath.suffixes` applied to a file name: empty when
the name ends with a dot, else one dotted suffix per component after the
first of the name stripped of leading dots. -/
def pySuffixes (name : String) : List String :=
  if name.data.getLast? = some '.' then []
  else
    let core := name.data.dropWhile (fun c => c = '.')
    ((splitDots core).drop 1).map (fun l => ⟨'.' :: l⟩)

/-- The total length of a list of suffix strings. -/
def sumLen (l : List String) : Nat :=
  l.foldl (fun a s => a + s.length) 0

/-- The Python slice expression `s[:-k]`: for positive `k` drop the last
`k` characters, but for `k = 0` the result is the empty string. -/
def pySliceToNeg (s : String) (k : Nat) : String :=
  if k = 0 then "" else ⟨s.data.take (s.data.length - k)⟩

/-- The outcome of `Module.ensure_untar`: the extraction directory, the
resulting filesystem, the fetches performed, and whether the archive was
actually extracted (the contents written by `tarfile.extractall` are
outside the model). -/
structure UntarResult where
  dir : FsPath
  fs : FS
  fetched : Nat
  extracted : Bool
deriving DecidableEq

/-- `Module.ensure_untar`: ensure the archive, derive the extraction
directory name by slicing off the total length of the archive name's
suffixes when no directory is given, and extract unless the directory
already exists and `force` is false. -/
def Module.ensure_untar (m : Module) (fs : FS) (remote : String → String)
    (subkeys : List String) (url : String) (name : Option String)
    (directory : Option String) (force : Bool) : UntarResult :=
  let r := m.ensure fs remote subkeys url name force
  let archiveName := r.path.getLastD ""
  let d := match directory with
    | some d => d
    | none => pySliceToNeg archiveName (sumLen (pySuffixes archiveName))
  let unzipped := joinName r.path.dropLast (some d)
  if r.fs.isDir unzipped && !force then
    ⟨unzipped, r.fs, r.fetched, false⟩
  else
    ⟨unzipped, r.fs.mkdirAll unzipped, r.fetched, true⟩

/-- Errors surfaced by the underlying libraries: a missing file on open,
or a malformed payload on parse. -/
inductive PyError where
  | fileNotFound
  | parseError
deriving DecidableEq

/-- `Module.open` in read mode (named `openFile` because `open` is a Lean
keyword): resolve the path, creating directories when `ensureExists` is
true, and return the file's content or a missing-file error.  Opening for
reading never creates a file. -/
def Module.openFile (m : Module) (fs : FS) (subkeys : List String)
    (name : String) (ensureExists : Bool) : Except PyError String × FS :=
  let pfs := m.join fs subkeys (some name) ensureExists
  match pfs.2.getFile pfs.1 with
  | some c => (.ok c, pfs.2)
  | none => (.error .fileNotFound, pfs.2)

/-- `pystow.api.open` in read mode: a module for `key` (directories
created), then `Module.open` with its default `ensure_exists=False`. -/
def apiOpen (env : Env) (fs : FS) (key : String) (subkeys : List String)
    (name : String) : Except PyError String × FS :=
  let mfs := Module.from_key env fs key [] true
  Module.openFile mfs.1 mfs.2 subkeys name false

/-- `Module.load_json`: open in read mode with `ensure_exists=True` and
decode with the JSON library, abstracted as `dec`. -/
def Module.load_json {α : Type} (m : Module) (fs : FS) (dec : String → Option α)
    (subkeys : List String) (name : String) : Except PyError α × FS :=
  let r := m.openFile fs subkeys name true
  match r.1 with
  | .ok c =>
    match dec c with
    | some a => (.ok a, r.2)
    | none => (.error .parseError, r.2)
  | .error e => (.error e, r.2)

/-- `pystow.api.load_json`: a module for `key`, then `Module.load_json`. -/
def apiLoadJson {α : Type} (env : Env) (fs : FS) (dec : String → Option α)
    (key : String) (subkeys : List String) (name : String) :
    Except PyError α × FS :=
  let mfs := Module.from_key env fs key [] true
  Module.load_json mfs.1 mfs.2 dec subkeys name

/-- `Module.dump_json`: open in write mode with `ensure_exists=True` and
write the encoded object, the JSON library abstracted as `enc`. -/
def Module.dump_json {α : Type} (m : Module) (fs : FS) (enc : α → String)
    (subkeys : List String) (name : String) (obj : α) : FS :=
  let pfs := m.join fs subkeys (some name) true
  pfs.2.setFile pfs.1 (enc obj)

/-- `Module.load_pickle`: open in read mode (default `ensure_exists=False`)
and decode with the pickle library, abstracted as `dec`. -/
def Module.load_pickle {β : Type} (m : Module) (fs : FS) (dec : String → Option β)
    (subkeys : List String) (name : String) : Except PyError β × FS :=
  let r := m.openFile fs subkeys name false
  match r.1 with
  | .ok c =>
    match dec c with
    | some b => (.ok b, r.2)
    | none => (.error .parseError, r.2)
  | .error e => (.error e, r.2)

/-- `Module.dump_pickle`: open in write mode (default `ensure_exists=False`)
and write the encoded object, the pickle library abstracted as `enc`. -/
def Module.dump_pickle {β : Type} (m : Module) (fs : FS) (enc : β → String)
    (subkeys : List String) (name : String) (obj : β) : FS :=
  let pfs := m.join fs subkeys (some name) false
  pfs.2.setFile pfs.1 (enc obj)

/-- The slice of `read_csv` keyword arguments the model tracks. -/
structure ReadCsvKwargs where
  sep : Option String
deriving DecidableEq

/-- `read_csv` keyword arguments after defaulting: `sep` is always set. -/
structure CleanCsvKwargs where
  sep : String
deriving DecidableEq

/-- `pystow.impl._clean_csv_kwargs`: copy the keyword arguments (an absent
mapping becomes empty) and default the separator to a tab. -/
def _clean_csv_kwargs (k : Option ReadCsvKwargs) : CleanCsvKwargs :=
  let kw := k.getD ⟨none⟩
  ⟨kw.sep.getD "\t"⟩

/-- The content of the target file after an ensure call, together with the
resulting filesystem and fetch count; this is what the format readers in
`Module.ensure_csv` and friends consume. -/
def Module.ensureContent (m : Module) (fs : FS) (remote : String → String)
    (subkeys : List String) (url : String) (name : Option String)
    (force : Bool) : String × FS × Nat :=
  let r := m.ensure fs remote subkeys url name force
  ((r.fs.getFile r.path).getD "", r.fs, r.fetched)

/-- `Module.ensure_csv`: ensure the file and read it with the table reader
(abstracted as `R`, taking content and separator) under the cleaned
keyword arguments. -/
def Module.ensure_csv {Df : Type} (m : Module) (fs : FS) (remote : String → String)
    (R : String → String → Df) (subkeys : List String) (url : String)
    (name : Option String) (force : Bool) (kw : Option ReadCsvKwargs) :
    Df × FS × Nat :=
  let c := m.ensureContent fs remote subkeys url name force
  (R c.1 (_clean_csv_kwargs kw).sep, c.2.1, c.2.2)

/-- `Module.load_df`: open an already-local file in read mode and read it
with the table reader under the cleaned keyword arguments. -/
def Module.load_df {Df : Type} (m : Module) (fs : FS) (R : String → String → Df)
    (subkeys : List String) (name : String) (kw : Option ReadCsvKwargs) :
    Except PyError Df × FS :=
  let r := m.openFile fs subkeys name false
  match r.1 with
  | .ok c => (.ok (R c (_clean_csv_kwargs kw).sep), r.2)
  | .error e => (.error e, r.2)

/-- The slice of `to_csv` keyword arguments the model tracks. -/
structure ToCsvKwargs where
  sep : Option String
  index : Option Bool
deriving DecidableEq

/-- `Module.dump_df`: default the separator and index flag into the
keyword arguments, resolve the path and write the serialised table, the
writer abstracted as `W` (object, separator, index flag). -/
def Module.dump_df {Df : Type} (m : Module) (fs : FS)
    (W : Df → String → Bool → String) (subkeys : List String) (name : String)
    (obj : Df) (sep : String) (index : Bool) (kw : Option ToCsvKwargs) : FS :=
  let k := kw.getD ⟨none, none⟩
  let sep2 := k.sep.getD sep
  let index2 := k.index.getD index
  let pfs := m.join fs subkeys (some name) true
  pfs.2.setFile pfs.1 (W obj sep2 index2)

/-- `Module.ensure_tar_df`: ensure the archive and read an inner member as
a table; `pystow.utils.read_tarfile_csv` (not among the sources) is
modelled from the spec as a reader `Rt` taking the archive content, the
inner path and the separator from the cleaned keyword arguments. -/
def Module.ensure_tar_df {Df : Type} (m : Module) (fs : FS) (remote : String → String)
    (Rt : String → String → String → Df) (subkeys : List String) (url : String)
    (inner_path : String) (name : Option String) (force : Bool)
    (kw : Option ReadCsvKwargs) : Df × FS × Nat :=
  let c := m.ensureContent fs remote subkeys url name force
  (Rt c.1 inner_path (_clean_csv_kwargs kw).sep, c.2.1, c.2.2)

/-- `Module.ensure_zip_df`: as `ensure_tar_df` with the zip reader
(`pystow.utils.read_zipfile_csv`, modelled from the spec as `Rz`). -/
def Module.ensure_zip_df {Df : Type} (m : Module) (fs : FS) (remote : String → String)
    (Rz : String → String → String → Df) (subkeys : List String) (url : String)
    (inner_path : String) (name : Option String) (force : Bool)
    (kw : Option ReadCsvKwargs) : Df × FS × Nat :=
  let c := m.ensureContent fs remote subkeys url name force
  (Rz c.1 inner_path (_clean_csv_kwargs kw).sep, c.2.1, c.2.2)

/-- Split a character list at its last dot: the part before the dot and
the part from the dot on; when there is no dot the whole list is the first
component. -/
def splitAtLastDot (l : List Char) : List Char × List Char :=
  let tail := (l.reverse.takeWhile (fun c => c ≠ '.')).reverse
  if tail.length = l.length then (l, [])
  else (l.take (l.length - tail.length - 1), l.drop (l.length - tail.length - 1))

/-- Python `pathlib.PurePath.suffix` applied to a file name: the part from
the last dot on, provided the dot is neither the first nor the last
character; otherwise empty. -/
def pySuffixLast (name : String) : String :=
  let sp := splitAtLastDot name.data
  if sp.1 ≠ [] ∧ 2 ≤ sp.2.length then ⟨sp.2⟩ else ""

/-- Python `pathlib.PurePath.with_suffix` applied to a file name: append
the new suffix when the name has no suffix, else replace the old suffix
with the new one. -/
def pyWithSuffix (name suffix : String) : String :=
  if pySuffixLast name = "" then name ++ suffix
  else ⟨(splitAtLastDot name.data).1⟩ ++ suffix

/-- The fixed suffix of the RDF precache. -/
def pickleGzSuffix : String := ".pickle.gz"

/-- The cache path of `ensure_rdf`: the Python expression
`path.with_suffix(path.suffix + ".pickle.gz")`, acting on the final path
component. -/
def cachePathOf (p : FsPath) : FsPath :=
  let n := p.getLastD ""
  p.dropLast ++ [pyWithSuffix n (pySuffixLast n ++ pickleGzSuffix)]

/-- The outcome of `Module.ensure_rdf`: the graph (abstract), the
resulting filesystem, the fetch count, and whether the graph was parsed
from the source file (as opposed to loaded from the pickle cache). -/
structure RdfResult where
  graph : String
  fs : FS
  fetched : Nat
  parsed : Bool
deriving DecidableEq

/-- `Module.ensure_rdf`: ensure the file; without precaching parse it
directly (`pystow.utils.read_rdf`, modelled from the spec as `parse` on
the file content).  With precaching, load the gzipped pickle at the cache
path when it exists and `force` is false, else parse and store the pickle
(gzip and pickle round-trip, so the cache content is modelled as the
graph itself). -/
def Module.ensure_rdf (m : Module) (fs : FS) (remote : String → String)
    (parse : String → String) (subkeys : List String) (url : String)
    (name : Option String) (force : Bool) (precache : Bool) : RdfResult :=
  let r := m.ensure fs remote subkeys url name force
  if !precache then
    ⟨parse ((r.fs.getFile r.path).getD ""), r.fs, r.fetched, true⟩
  else
    let cp := cachePathOf r.path
    if r.fs.isFile cp && !force then
      ⟨(r.fs.getFile cp).getD "", r.fs, r.fetched, false⟩
    else
      let g := parse ((r.fs.getFile r.path).getD "")
      ⟨g, r.fs.setFile cp g, r.fetched, true⟩

/-- The target path of an ensure call: the module directory joined with
the subkeys and the file name (explicit, or derived from the URL tail). -/
def Module.ensureTarget (m : Module) (subkeys : List String) (url : String)
    (name : Option String) : FsPath :=
  joinName (m.base ++ subkeys) (some (name.getD (name_from_url url)))

theorem getFileAux_setFileAux_self (l : List (FsPath × String)) (p : FsPath)
    (c : String) : getFileAux (setFileAux l p c) p = some c := by
  induction l with
  | nil => simp [setFileAux, getFileAux]
  | cons hd tl ih =>
    obtain ⟨q, d⟩ := hd
    by_cases h : q = p
    · simp [setFileAux, getFileAux, h]
    · simp [setFileAux, getFileAux, h, ih]

theorem getFileAux_setFileAux_ne (l : List (FsPath × String)) (p q : FsPath)
    (c : String) (h : q ≠ p) :
    getFileAux (setFileAux l p c) q = getFileAux l q := by
  induction l with
  | nil => simp [setFileAux, getFileAux, Ne.symm h]
  | cons hd tl ih =>
    obtain ⟨r, d⟩ := hd
    by_cases hr : r = p
    · subst hr
      simp [setFileAux, getFileAux, Ne.symm h]
    · simp only [setFileAux, if_neg hr, getFileAux]
      by_cases hq : r = q <;> simp [hq, ih]

theorem FS.getFile_setFile_self (fs : FS) (p : FsPath) (c : String) :
    (fs.setFile p c).getFile p = some c :=
  getFileAux_setFileAux_self fs.files p c

theorem FS.getFile_setFile_ne (fs : FS) (p q : FsPath) (c : String) (h : q ≠ p) :
    (fs.setFile p c).getFile q = fs.getFile q :=
  getFileAux_setFileAux_ne fs.files p q c h

theorem FS.getFile_eq_of_files_eq {fs fs' : FS} (h : fs.files = fs'.files)
    (p : FsPath) : fs.getFile p = fs'.getFile p := by
  unfold FS.getFile
  rw [h]

theorem FS.isFile_eq_of_files_eq {fs fs' : FS} (h : fs.files = fs'.files)
    (p : FsPath) : fs.isFile p = fs'.isFile p := by
  unfold FS.isFile
  rw [FS.getFile_eq_of_files_eq h]

theorem mem_addDir_of_mem {ds : List FsPath} {r : FsPath} (q : FsPath)
    (h : r ∈ ds) : r ∈ addDir ds q := by
  unfold addDir
  split <;> simp [h]

theorem self_mem_addDir (ds : List FsPath) (q : FsPath) : q ∈ addDir ds q := by
  unfold addDir
  split <;> simp_all

theorem addDir_eq_of_mem {ds : List FsPath} {q : FsPath} (h : q ∈ ds) :
    addDir ds q = ds := by
  unfold addDir
  exact if_pos h

theorem mem_foldl_addDir_of_mem {r : FsPath} (l : List FsPath)
    (ds : List FsPath) (h : r ∈ ds) : r ∈ l.foldl addDir ds := by
  induction l generalizing ds with
  | nil => exact h
  | cons q l ih => exact ih (addDir ds q) (mem_addDir_of_mem q h)

theorem mem_foldl_addDir_of_mem_list {q : FsPath} (l : List FsPath)
    (ds : List FsPath) (h : q ∈ l) : q ∈ l.foldl addDir ds := by
  induction l generalizing ds with
  | nil => cases h
  | cons r l ih =>
    rcases List.mem_cons.mp h with h | h
    · subst h
      exact mem_foldl_addDir_of_mem l _ (self_mem_addDir ds q)
    · exact ih _ h

theorem foldl_addDir_eq_of_forall_mem {l ds : List FsPath}
    (h : ∀ q ∈ l, q ∈ ds) : l.foldl addDir ds = ds := by
  induction l with
  | nil => rfl
  | cons q l ih =>
    have hq : addDir ds q = ds := addDir_eq_of_mem (h q (List.mem_cons_self q l))
    simp only [List.foldl_cons, hq]
    exact ih (fun r hr => h r (List.mem_cons_of_mem q hr))

theorem mem_initSegsOf {p : FsPath} {i : Nat} (h : i < p.length) :
    p.take (i + 1) ∈ initSegsOf p := by
  unfold initSegsOf
  exact List.mem_map.mpr ⟨i, List.mem_range.mpr h, rfl⟩

theorem take_mem_mkdirAll (fs : FS) (p : FsPath) {i : Nat} (h : i < p.length) :
    p.take (i + 1) ∈ (fs.mkdirAll p).dirs :=
  mem_foldl_addDir_of_mem_list _ _ (mem_initSegsOf h)

theorem mem_mkdirAll_of_mem (fs : FS) (p : FsPath) {r : FsPath}
    (h : r ∈ fs.dirs) : r ∈ (fs.mkdirAll p).dirs :=
  mem_foldl_addDir_of_mem _ _ h

theorem mkdirAll_eq_self {fs : FS} {p : FsPath}
    (h : ∀ i, i < p.length → p.take (i + 1) ∈ fs.dirs) : fs.mkdirAll p = fs := by
  unfold FS.mkdirAll
  have hall : ∀ q ∈ initSegsOf p, q ∈ fs.dirs := by
    intro q hq
    obtain ⟨i, hi, rfl⟩ := List.mem_map.mp hq
    exact h i (List.mem_range.mp hi)
  rw [foldl_addDir_eq_of_forall_mem hall]

theorem mkdirAll_files (fs : FS) (p : FsPath) : (fs.mkdirAll p).files = fs.files :=
  rfl

theorem mkdir_files (fs : FS) (p : FsPath) (e : Bool) :
    (mkdir fs p e).files = fs.files := by
  cases e <;> rfl

theorem join_fst (m : Module) (fs : FS) (sk : List String) (nm : Option String)
    (e : Bool) : (m.join fs sk nm e).1 = joinName (m.base ++ sk) nm := by
  unfold Module.join
  split
  · next h => rw [List.isEmpty_iff.mp h, List.append_nil]
  · rfl

theorem join_files (m : Module) (fs : FS) (sk : List String) (nm : Option String)
    (e : Bool) : ((m.join fs sk nm e).2).files = fs.files := by
  unfold Module.join
  split
  · rfl
  · exact mkdir_files fs _ e

theorem join_false_snd (m : Module) (fs : FS) (sk : List String)
    (nm : Option String) : (m.join fs sk nm false).2 = fs := by
  unfold Module.join
  split <;> rfl

theorem from_key_nil_fst (env : Env) (fs : FS) (key : String) (e : Bool) :
    (Module.from_key env fs key [] e).1 = ⟨get_base env key⟩ :=
  rfl

theorem from_key_nil_snd (env : Env) (fs : FS) (key : String) (e : Bool) :
    (Module.from_key env fs key [] e).2 = mkdir fs (get_base env key) e :=
  rfl

theorem join_isFile (m : Module) (fs : FS) (sk : List String) (nm : Option String)
    (e : Bool) (p : FsPath) : ((m.join fs sk nm e).2).isFile p = fs.isFile p :=
  FS.isFile_eq_of_files_eq (join_files m fs sk nm e) p

theorem join_getFile (m : Module) (fs : FS) (sk : List String) (nm : Option String)
    (e : Bool) (p : FsPath) : ((m.join fs sk nm e).2).getFile p = fs.getFile p :=
  FS.getFile_eq_of_files_eq (join_files m fs sk nm e) p

theorem ensure_path (m : Module) (fs : FS) (remote : String → String)
    (sk : List String) (url : String) (nm : Option String) (force : Bool) :
    (m.ensure fs remote sk url nm force).path = m.ensureTarget sk url nm := by
  have h : (m.ensure fs remote sk url nm force).path
      = (m.join fs sk (some (nm.getD (name_from_url url))) true).1 := rfl
  rw [h, join_fst]
  rfl

theorem download_eval (fs : FS) (remote : String → String) (url : String)
    (p : FsPath) (force : Bool) :
    download fs remote url p force
      = cond (fs.isFile p && !force) (fs, 0) (fs.setFile p (remote url), 1) := by
  unfold download
  cases h : fs.isFile p && !force <;> simp [h]

theorem ensure_eval (m : Module) (fs : FS) (remote : String → String)
    (sk : List String) (url : String) (nm : Option String) (force : Bool) :
    m.ensure fs remote sk url nm force
      = cond (fs.isFile (m.ensureTarget sk url nm) && !force)
          ⟨m.ensureTarget sk url nm,
            (m.join fs sk (some (nm.getD (name_from_url url))) true).2, 0⟩
          ⟨m.ensureTarget sk url nm,
            (m.join fs sk (some (nm.getD (name_from_url url))) true).2.setFile
              (m.ensureTarget sk url nm) (remote url), 1⟩ := by
  have h0 : m.ensure fs remote sk url nm force
      = ⟨(m.join fs sk (some (nm.getD (name_from_url url))) true).1,
          (download (m.join fs sk (some (nm.getD (name_from_url url))) true).2
            remote url (m.join fs sk (some (nm.getD (name_from_url url))) true).1
            force).1,
          (download (m.join fs sk (some (nm.getD (name_from_url url))) true).2
            remote url (m.join fs sk (some (nm.getD (name_from_url url))) true).1
            force).2⟩ := rfl
  rw [h0, download_eval, join_isFile, join_fst]
  simp only [Module.ensureTarget]
  cases fs.isFile (joinName (m.base ++ sk) (some (nm.getD (name_from_url url)))) && !force <;>
    rfl

theorem ensure_fetched (m : Module) (fs : FS) (remote : String → String)
    (sk : List String) (url : String) (nm : Option String) (force : Bool) :
    (m.ensure fs remote sk url nm force).fetched
      = cond (fs.isFile (m.ensureTarget sk url nm) && !force) 0 1 := by
  rw [ensure_eval]
  cases fs.isFile (m.ensureTarget sk url nm) && !force <;> rfl

theorem ensure_files (m : Module) (fs : FS) (remote : String → String)
    (sk : List String) (url : String) (nm : Option String) (force : Bool) :
    (m.ensure fs remote sk url nm force).fs.files
      = cond (fs.isFile (m.ensureTarget sk url nm) && !force) fs.files
          ((fs.setFile (m.ensureTarget sk url nm) (remote url)).files) := by
  rw [ensure_eval]
  cases fs.isFile (m.ensureTarget sk url nm) && !force
  · show (FS.setFile _ _ _).files = (FS.setFile _ _ _).files
    unfold FS.setFile
    rw [join_files]
  · exact join_files m fs sk _ true

theorem ensure_getFile_target (m : Module) (fs : FS) (remote : String → String)
    (sk : List String) (url : String) (nm : Option String) (force : Bool) :
    (m.ensure fs remote sk url nm force).fs.getFile (m.ensureTarget sk url nm)
      = cond (fs.isFile (m.ensureTarget sk url nm) && !force)
          (fs.getFile (m.ensureTarget sk url nm)) (some (remote url)) := by
  rw [ensure_eval]
  cases fs.isFile (m.ensureTarget sk url nm) && !force
  · exact FS.getFile_setFile_self _ _ _
  · exact join_getFile m fs sk _ true _

theorem ensure_isFile_target (m : Module) (fs : FS) (remote : String → String)
    (sk : List String) (url : String) (nm : Option String) (force : Bool) :
    (m.ensure fs remote sk url nm force).fs.isFile (m.ensureTarget sk url nm)
      = true := by
  unfold FS.isFile
  rw [ensure_getFile_target]
  cases hb : fs.isFile (m.ensureTarget sk url nm) && !force
  · simp
  · simp only [Bool.and_eq_true] at hb
    have h1 := hb.1
    unfold FS.isFile at h1
    simpa using h1

theorem ensure_getFile_ne (m : Module) (fs : FS) (remote : String → String)
    (sk : List String) (url : String) (nm : Option String) (force : Bool)
    {q : FsPath} (hq : q ≠ m.ensureTarget sk url nm) :
    (m.ensure fs remote sk url nm force).fs.getFile q = fs.getFile q := by
  rw [ensure_eval]
  cases fs.isFile (m.ensureTarget sk url nm) && !force
  · show (FS.setFile _ _ _).getFile q = _
    rw [FS.getFile_setFile_ne _ _ _ _ hq]
    exact join_getFile m fs sk _ true q
  · exact join_getFile m fs sk _ true q

theorem strMk_append (a b : List Char) :
    (String.mk a ++ String.mk b) = String.mk (a ++ b) :=
  rfl

theorem str_empty_append (s : String) : "" ++ s = s := by
  cases s
  rfl

theorem str_append_assoc (a b c : String) : (a ++ b) ++ c = a ++ (b ++ c) := by
  cases a
  cases b
  cases c
  show String.mk _ = String.mk _
  rw [List.append_assoc]

theorem strMk_data (s : String) : String.mk s.data = s := by
  cases s
  rfl

theorem splitAtLastDot_append (l : List Char) :
    (splitAtLastDot l).1 ++ (splitAtLastDot l).2 = l := by
  simp only [splitAtLastDot]
  split
  · simp
  · exact List.take_append_drop _ l

theorem pyWithSuffix_append (n s : String) :
    pyWithSuffix n (pySuffixLast n ++ s) = n ++ s := by
  unfold pyWithSuffix
  by_cases h : pySuffixLast n = ""
  · rw [if_pos h, h, str_empty_append]
  · rw [if_neg h]
    have hc : (splitAtLastDot n.data).1 ≠ [] ∧ 2 ≤ (splitAtLastDot n.data).2.length := by
      by_contra hc
      apply h
      unfold pySuffixLast
      exact if_neg hc
    have hv : pySuffixLast n = String.mk (splitAtLastDot n.data).2 := by
      unfold pySuffixLast
      exact if_pos hc
    rw [hv]
    cases n with
    | mk d =>
      show String.mk ((splitAtLastDot d).1 ++ ((splitAtLastDot d).2 ++ s.data))
          = String.mk (d ++ s.data)
      rw [← List.append_assoc, splitAtLastDot_append]

theorem cachePathOf_eq (p : FsPath) :
    cachePathOf p = p.dropLast ++ [p.getLastD "" ++ pickleGzSuffix] := by
  simp only [cachePathOf]
  rw [pyWithSuffix_append]

theorem str_length_append (a b : String) : (a ++ b).length = a.length + b.length :=
  String.length_append a b

theorem append_pickleGz_ne (x : String) : x ++ pickleGzSuffix ≠ x := by
  intro h
  have hlen := congrArg String.length h
  rw [str_length_append] at hlen
  have hp : pickleGzSuffix.length = 10 := rfl
  omega

theorem cachePathOf_ne (p : FsPath) : cachePathOf p ≠ p := by
  rw [cachePathOf_eq]
  induction p using List.reverseRecOn with
  | nil => simp
  | append_singleton xs x _ =>
    simp only [List.dropLast_concat, List.getLastD_concat]
    intro h
    have h2 : x ++ pickleGzSuffix = x := by
      have h3 := congrArg (fun l => l.getLastD "") h
      simpa using h3
    exact append_pickleGz_ne x h2

theorem openFile_eval (m : Module) (fs : FS) (sk : List String) (n : String)
    (e : Bool) :
    m.openFile fs sk n e
      = ((match fs.getFile (joinName (m.base ++ sk) (some n)) with
          | some c => Except.ok c
          | none => Except.error PyError.fileNotFound),
         (m.join fs sk (some n) e).2) := by
  have h : (m.join fs sk (some n) e).2.getFile ((m.join fs sk (some n) e).1)
      = fs.getFile (joinName (m.base ++ sk) (some n)) := by
    rw [join_getFile, join_fst]
  simp only [Module.openFile]
  rw [h]
  cases fs.getFile (joinName (m.base ++ sk) (some n)) <;> rfl

theorem apiJoin_false (env : Env) (fs : FS) (key : String) (sk : List String)
    (nm : Option String) :
    apiJoin env fs key sk nm false = (joinName (get_base env key ++ sk) nm, fs) := by
  show Module.join ⟨get_base env key⟩ fs sk nm false = _
  unfold Module.join
  split
  · next h => rw [List.isEmpty_iff.mp h, List.append_nil]
  · rfl

theorem apiJoin_true_eval (env : Env) (fs : FS) (key : String) (sk : List String)
    (nm : Option String) :
    apiJoin env fs key sk nm true
      = (joinName (get_base env key ++ sk) nm,
         if sk.isEmpty then (fs.mkdirAll (get_base env key))
         else (fs.mkdirAll (get_base env key)).mkdirAll (get_base env key ++ sk)) := by
  show Module.join ⟨get_base env key⟩ (fs.mkdirAll (get_base env key)) sk nm true = _
  unfold Module.join
  split
  · next h => rw [List.isEmpty_iff.mp h, List.append_nil]
  · rfl

theorem envLookup_envSet_self (env : Env) (k v : String) :
    envLookup (envSet env k v) k = some v := by
  simp [envSet, envLookup]

theorem envLookup_envUnset_self (env : Env) (q : String) :
    envLookup (envUnset env q) q = none := by
  induction env with
  | nil => rfl
  | cons hd tl ih =>
    obtain ⟨k, v⟩ := hd
    by_cases h : k = q
    · simp [envUnset, envLookup, h, ih]
    · simp [envUnset, envLookup, h, ih]

theorem dump_getFile_self (m : Module) (fs : FS) (sk : List String) (n : String)
    (c : String) (e : Bool) :
    ((m.join fs sk (some n) e).2.setFile ((m.join fs sk (some n) e).1) c).getFile
      (joinName (m.base ++ sk) (some n)) = some c := by
  rw [← join_fst m fs sk (some n) e]
  exact FS.getFile_setFile_self _ _ _

theorem ensure_from_s3_path (m : Module) (fs : FS) (s3get : String → String → String)
    (sk : List String) (bucket : String) (skey : String ⊕ List String)
    (nm : Option String) (force : Bool) :
    (m.ensure_from_s3 fs s3get sk bucket skey nm force).path
      = joinName (m.base ++ sk) (some (nm.getD (name_from_s3_key (normS3Key skey)))) := by
  simp only [Module.ensure_from_s3]
  split <;> exact join_fst m fs sk _ true

theorem apiOpen_eval (env : Env) (fs : FS) (key : String) (sk : List String)
    (n : String) :
    apiOpen env fs key sk n
      = ((match fs.getFile (joinName (get_base env key ++ sk) (some n)) with
          | some c => Except.ok c
          | none => Except.error PyError.fileNotFound),
         (Module.join ⟨get_base env key⟩ (fs.mkdirAll (get_base env key)) sk
            (some n) false).2) := by
  have e1 : apiOpen env fs key sk n
      = Module.openFile ⟨get_base env key⟩ (fs.mkdirAll (get_base env key)) sk n false :=
    rfl
  rw [e1, openFile_eval]
  have hg : (fs.mkdirAll (get_base env key)).getFile
      (joinName ((⟨get_base env key⟩ : Module).base ++ sk) (some n))
      = fs.getFile (joinName (get_base env key ++ sk) (some n)) := rfl
  rw [hg]

/-- Claim C1: `Module.ensure` performs the fetch exactly when the target
path is missing or `force` is set: the fetch count is zero when the target
exists and `force` is false (the file associations are then unchanged and
the existing path is returned) and one otherwise (the target is written
with the fetched content, overwriting previous content, also when `force`
is true and the path exists); the returned value is always the target path
`directory/fileName`, and a second ensure call with `force` false performs
zero fetches. -/
theorem C1_ensure_fetch_iff (m : Module) (fs : FS) (remote : String → String)
    (subkeys : List String) (url : String) (name : Option String) (force : Bool) :
    (m.ensure fs remote subkeys url name force).path = m.ensureTarget subkeys url name
  ∧ (m.ensure fs remote subkeys url name force).fetched
      = cond (fs.isFile (m.ensureTarget subkeys url name) && !force) 0 1
  ∧ (m.ensure fs remote subkeys url name force).fs.files
      = cond (fs.isFile (m.ensureTarget subkeys url name) && !force) fs.files
          ((fs.setFile (m.ensureTarget subkeys url name) (remote url)).files)
  ∧ (m.ensure fs remote subkeys url name force).fs.getFile
        (m.ensureTarget subkeys url name)
      = cond (fs.isFile (m.ensureTarget subkeys url name) && !force)
          (fs.getFile (m.ensureTarget subkeys url name)) (some (remote url))
  ∧ (m.ensure (m.ensure fs remote subkeys url name force).fs remote subkeys url
        name false).fetched = 0 := by
  refine ⟨ensure_path m fs remote subkeys url name force,
    ensure_fetched m fs remote subkeys url name force,
    ensure_files m fs remote subkeys url name force,
    ensure_getFile_target m fs remote subkeys url name force, ?_⟩
  rw [ensure_fetched, ensure_isFile_target]
  rfl

theorem apiJoin_true_nil (env : Env) (fs : FS) (key : String) (nm : Option String) :
    apiJoin env fs key [] nm true
      = (joinName (get_base env key) nm, fs.mkdirAll (get_base env key)) := by
  rw [apiJoin_true_eval, List.append_nil]
  rfl

theorem apiJoin_true_ne (env : Env) (fs : FS) (key : String) (sk : List String)
    (nm : Option String) (h : sk.isEmpty = false) :
    apiJoin env fs key sk nm true
      = (joinName (get_base env key ++ sk) nm,
         (fs.mkdirAll (get_base env key)).mkdirAll (get_base env key ++ sk)) := by
  rw [apiJoin_true_eval, h]
  rfl

theorem apiJoin_true_idem (env : Env) (fs : FS) (key : String) (sk : List String)
    (nm : Option String) :
    apiJoin env (apiJoin env fs key sk nm true).2 key sk nm true
      = apiJoin env fs key sk nm true := by
  by_cases hsk : sk.isEmpty
  · obtain rfl : sk = [] := List.isEmpty_iff.mp hsk
    rw [apiJoin_true_nil env fs key nm]
    show apiJoin env (fs.mkdirAll (get_base env key)) key [] nm true = _
    rw [apiJoin_true_nil]
    have h1 : (fs.mkdirAll (get_base env key)).mkdirAll (get_base env key)
        = fs.mkdirAll (get_base env key) :=
      mkdirAll_eq_self (fun i hi => take_mem_mkdirAll fs _ hi)
    rw [h1]
  · have hb : sk.isEmpty = false := by
      cases hc : sk.isEmpty
      · rfl
      · exact absurd hc hsk
    rw [apiJoin_true_ne env fs key sk nm hb]
    show apiJoin env
        ((fs.mkdirAll (get_base env key)).mkdirAll (get_base env key ++ sk))
        key sk nm true = _
    rw [apiJoin_true_ne env _ key sk nm hb]
    have h1 : ((fs.mkdirAll (get_base env key)).mkdirAll
          (get_base env key ++ sk)).mkdirAll (get_base env key)
        = (fs.mkdirAll (get_base env key)).mkdirAll (get_base env key ++ sk) :=
      mkdirAll_eq_self (fun i hi =>
        mem_mkdirAll_of_mem _ _ (take_mem_mkdirAll fs _ hi))
    have h2 : ((fs.mkdirAll (get_base env key)).mkdirAll
          (get_base env key ++ sk)).mkdirAll (get_base env key ++ sk)
        = (fs.mkdirAll (get_base env key)).mkdirAll (get_base env key ++ sk) :=
      mkdirAll_eq_self (fun i hi => take_mem_mkdirAll _ _ hi)
    rw [h1, h2]

theorem apiJoin_true_levels (env : Env) (fs : FS) (key : String)
    (sk : List String) :
    ∀ k, k < (apiJoin env fs key sk none true).1.length →
      (apiJoin env fs key sk none true).1.take (k + 1)
        ∈ ((apiJoin env fs key sk none true).2).dirs := by
  by_cases hsk : sk.isEmpty
  · obtain rfl : sk = [] := List.isEmpty_iff.mp hsk
    rw [apiJoin_true_nil]
    intro k hk
    exact take_mem_mkdirAll fs _ hk
  · have hb : sk.isEmpty = false := by
      cases hc : sk.isEmpty
      · rfl
      · exact absurd hc hsk
    rw [apiJoin_true_ne env fs key sk none hb]
    intro k hk
    exact take_mem_mkdirAll _ _ hk

/-- Claim C2: resolving a directory through the api join entry point with
ensureExists true twice yields the same path both times, the second
resolution leaves the filesystem exactly as the first left it (idempotent
creation, and creating an existing directory is no error since directory
creation is total in the model), and every directory level along the
resolved path exists after the first resolution. -/
theorem C2_join_idempotent (env : Env) (fs : FS) (key : String)
    (subkeys : List String) :
    (apiJoin env (apiJoin env fs key subkeys none true).2 key subkeys none true).1
        = (apiJoin env fs key subkeys none true).1
  ∧ (apiJoin env (apiJoin env fs key subkeys none true).2 key subkeys none true).2
        = (apiJoin env fs key subkeys none true).2
  ∧ ∀ k, k < (apiJoin env fs key subkeys none true).1.length →
      (apiJoin env fs key subkeys none true).1.take (k + 1)
        ∈ ((apiJoin env fs key subkeys none true).2).dirs :=
  ⟨congrArg Prod.fst (apiJoin_true_idem env fs key subkeys none),
   congrArg Prod.snd (apiJoin_true_idem env fs key subkeys none),
   apiJoin_true_levels env fs key subkeys⟩

/-- Claim C2 witness at a concrete input. -/
theorem C2_join_idempotent_w :
    (apiJoin [] ⟨[], []⟩ "test" ["a"] none true).1.take 1
        ∈ ((apiJoin [] ⟨[], []⟩ "test" ["a"] none true).2).dirs
  ∧ (apiJoin [] (apiJoin [] ⟨[], []⟩ "test" ["a"] none true).2 "test" ["a"]
        none true).2
      = (apiJoin [] ⟨[], []⟩ "test" ["a"] none true).2 := by
  refine ⟨?_, (C2_join_idempotent [] ⟨[], []⟩ "test" ["a"]).2.1⟩
  exact (C2_join_idempotent [] ⟨[], []⟩ "test" ["a"]).2.2 0 (by decide)


/-- Claim C3: the resolved root for a module key is the value of the
environment variable named by upper-casing the key and appending `_HOME`
when that variable is set — so setting the override changes the root to
its value — else the key's directory under the process-wide default home;
the default home is the home-override variable when set, else the
built-in location under the user's home; unsetting the override reverts
the root to the default. -/
theorem C3_root_envvar (env : Env) (key v : String) :
    get_base (envSet env (upper key ++ "_HOME") v) key = pathFromString v
  ∧ get_base (envUnset env (upper key ++ "_HOME")) key
      = get_home (envUnset env (upper key ++ "_HOME")) ++ [key]
  ∧ (envLookup env (upper key ++ "_HOME") = none →
      get_base env key = get_home env ++ [key])
  ∧ (envLookup env pystowHomeEnvvar = some v → get_home env = pathFromString v)
  ∧ (envLookup env pystowHomeEnvvar = none →
      get_home env = userHome ++ ["." ++ get_name env]) := by
  refine ⟨?_, ?_, ?_, ?_, ?_⟩
  · unfold get_base
    rw [envLookup_envSet_self]
  · unfold get_base
    rw [envLookup_envUnset_self]
  · intro h
    unfold get_base
    rw [h]
  · intro h
    unfold get_home
    rw [h]
  · intro h
    unfold get_home
    rw [h]

/-- Claim C3 witness at concrete inputs. -/
theorem C3_root_envvar_w :
    get_base (envSet [] (upper "test" ++ "_HOME") "a/b") "test"
        = pathFromString "a/b"
  ∧ get_base [] "test" = get_home [] ++ ["test"]
  ∧ get_home [("PYSTOW_HOME", "h/x")] = pathFromString "h/x"
  ∧ get_home [] = userHome ++ ["." ++ get_name []] :=
  ⟨(C3_root_envvar [] "test" "a/b").1,
   (C3_root_envvar [] "test" "a/b").2.2.1 (by rfl),
   (C3_root_envvar [("PYSTOW_HOME", "h/x")] "test" "h/x").2.2.2.1 (by rfl),
   (C3_root_envvar [] "test" "x").2.2.2.2 (by rfl)⟩

/-- Claim C9: resolving through the api join entry point with ensureExists
false creates no directory at any level: the filesystem is returned
unchanged, and the computed path (the root for the key joined with the
subkeys and the optional name) is returned whether or not it exists. -/
theorem C9_join_no_create (env : Env) (fs : FS) (key : String)
    (subkeys : List String) (name : Option String) :
    apiJoin env fs key subkeys name false
      = (joinName (get_base env key ++ subkeys) name, fs) :=
  apiJoin_false env fs key subkeys name

/-- Claim C8: when no explicit file name is supplied, the local file name
is the final path segment of the fetch descriptor — the URL tail for
`Module.ensure` and the S3-key tail for `Module.ensure_from_s3`, a
sequence-valued S3 key being first joined with a slash — and the target
path is the directory joined with that file name. -/
theorem C8_default_name (m : Module) (fs : FS) (remote : String → String)
    (s3get : String → String → String) (subkeys : List String)
    (url bucket skey : String) (segs : List String) (force : Bool) :
    (m.ensure fs remote subkeys url none force).path
      = joinName (m.base ++ subkeys) (some (name_from_url url))
  ∧ name_from_url url = (strSplit '/' url).getLastD ""
  ∧ (m.ensure_from_s3 fs s3get subkeys bucket (Sum.inl skey) none force).path
      = joinName (m.base ++ subkeys) (some (name_from_s3_key skey))
  ∧ (m.ensure_from_s3 fs s3get subkeys bucket (Sum.inr segs) none force).path
      = joinName (m.base ++ subkeys)
          (some (name_from_s3_key (String.intercalate "/" segs))) := by
  refine ⟨?_, rfl, ?_, ?_⟩
  · rw [ensure_path]
    rfl
  · exact ensure_from_s3_path m fs s3get subkeys bucket (Sum.inl skey) none force
  · exact ensure_from_s3_path m fs s3get subkeys bucket (Sum.inr segs) none force

/-- Claim C5: opening a file that was never created, through the api open
entry point or the load_json adapter, yields a missing-file error and
creates no file: the file associations are unchanged and there is still
no file at the resolved path afterwards. -/
theorem C5_open_missing {α : Type} (env : Env) (fs : FS) (dec : String → Option α)
    (key : String) (subkeys : List String) (name : String)
    (h : fs.getFile (joinName (get_base env key ++ subkeys) (some name)) = none) :
    (apiOpen env fs key subkeys name).1 = Except.error PyError.fileNotFound
  ∧ (apiOpen env fs key subkeys name).2.files = fs.files
  ∧ (apiOpen env fs key subkeys name).2.getFile
      (joinName (get_base env key ++ subkeys) (some name)) = none
  ∧ (apiLoadJson env fs dec key subkeys name).1 = Except.error PyError.fileNotFound
  ∧ (apiLoadJson env fs dec key subkeys name).2.files = fs.files := by
  have hopen : ∀ e : Bool,
      Module.openFile (⟨get_base env key⟩ : Module) (fs.mkdirAll (get_base env key))
          subkeys name e
        = (Except.error PyError.fileNotFound,
           (Module.join ⟨get_base env key⟩ (fs.mkdirAll (get_base env key)) subkeys
              (some name) e).2) := by
    intro e
    rw [openFile_eval]
    have hg : (fs.mkdirAll (get_base env key)).getFile
        (joinName ((⟨get_base env key⟩ : Module).base ++ subkeys) (some name))
        = none := h
    rw [hg]
  have eo : apiOpen env fs key subkeys name
      = Module.openFile ⟨get_base env key⟩ (fs.mkdirAll (get_base env key))
          subkeys name false := rfl
  have el : apiLoadJson env fs dec key subkeys name
      = Module.load_json ⟨get_base env key⟩ (fs.mkdirAll (get_base env key)) dec
          subkeys name := rfl
  have elj : Module.load_json (⟨get_base env key⟩ : Module)
      (fs.mkdirAll (get_base env key)) dec subkeys name
      = (Except.error PyError.fileNotFound,
         (Module.join ⟨get_base env key⟩ (fs.mkdirAll (get_base env key)) subkeys
            (some name) true).2) := by
    simp only [Module.load_json]
    rw [hopen true]
  have hfiles : ∀ e : Bool,
      ((Module.join (⟨get_base env key⟩ : Module) (fs.mkdirAll (get_base env key))
        subkeys (some name) e).2).files = fs.files := by
    intro e
    rw [join_files]
    rfl
  refine ⟨?_, ?_, ?_, ?_, ?_⟩
  · rw [eo, hopen false]
  · rw [eo, hopen false]
    exact hfiles false
  · rw [eo, hopen false]
    rw [FS.getFile_eq_of_files_eq (hfiles false)]
    exact h
  · rw [el, elj]
  · rw [el, elj]
    exact hfiles true

/-- Claim C5 witness at a concrete input. -/
theorem C5_open_missing_w :
    (apiOpen [] ⟨[], []⟩ "nope" [] "nope").1 = Except.error PyError.fileNotFound
  ∧ (apiLoadJson [] (⟨[], []⟩ : FS) (fun s => some s) "nope" [] "nope").1
      = Except.error PyError.fileNotFound :=
  ⟨(C5_open_missing [] ⟨[], []⟩ (fun s => some s) "nope" [] "nope" (by rfl)).1,
   (C5_open_missing [] ⟨[], []⟩ (fun s => some s) "nope" [] "nope" (by rfl)).2.2.2.1⟩


/-- Claim C4 (code evidence at the failing input): `ensure_untar` on an
archive whose file name has no dot-suffix.  `pySuffixes "archive"` is
empty, so the slice `name[:-0]` yields the empty string, the extraction
target degenerates to the archive's parent directory (which exists), and
the call returns the module directory itself with no extraction — not the
suffix-stripped sibling directory "archive" that the claim (and the
function's own docstring, "will use the stem of the file name") describe. -/
theorem C4_untar_no_suffix_bug :
    (Module.ensure_untar ⟨["home", "test"]⟩ ⟨[["home"], ["home", "test"]], []⟩
        (fun x => x) [] "https://example.org/archive" none none false).dir
      = ["home", "test"]
  ∧ (Module.ensure_untar ⟨["home", "test"]⟩ ⟨[["home"], ["home", "test"]], []⟩
        (fun x => x) [] "https://example.org/archive" none none false).extracted
      = false
  ∧ (Module.ensure_untar ⟨["home", "test"]⟩ ⟨[["home"], ["home", "test"]], []⟩
        (fun x => x) [] "https://example.org/archive" none none false).dir
      ≠ ["home", "test", "archive"]
  ∧ pySliceToNeg "archive" (sumLen (pySuffixes "archive")) = "" := by
  refine ⟨by decide, by decide, by decide, by decide⟩

/-- Claim C6: with precaching, the RDF side cache lives at the path whose
final component is the target file's name with ".pickle.gz" appended,
alongside the original; the cached pickle is loaded instead of parsing
exactly when the cache file exists (the ensure step never touches the
cache path, so before-call and after-ensure existence agree) and force is
false; after the call the cache file always exists, holding the returned
graph when parsing happened.  Only force or deleting the cache file
change the branch taken — the model has no staleness input at all. -/
theorem C6_rdf_precache (m : Module) (fs : FS) (remote parse : String → String)
    (subkeys : List String) (url : String) (name : Option String) (force : Bool) :
    cachePathOf (m.ensureTarget subkeys url name)
      = (m.ensureTarget subkeys url name).dropLast
          ++ [(m.ensureTarget subkeys url name).getLastD "" ++ pickleGzSuffix]
  ∧ (m.ensure_rdf fs remote parse subkeys url name force true).parsed
      = !(fs.isFile (cachePathOf (m.ensureTarget subkeys url name)) && !force)
  ∧ (m.ensure_rdf fs remote parse subkeys url name force true).fs.isFile
      (cachePathOf (m.ensureTarget subkeys url name)) = true
  ∧ (m.ensure_rdf fs remote parse subkeys url name force true).fs.getFile
      (cachePathOf (m.ensureTarget subkeys url name))
      = cond (fs.isFile (cachePathOf (m.ensureTarget subkeys url name)) && !force)
          (fs.getFile (cachePathOf (m.ensureTarget subkeys url name)))
          (some (m.ensure_rdf fs remote parse subkeys url name force true).graph) := by
  have e0 : m.ensure_rdf fs remote parse subkeys url name force true
      = (if (m.ensure fs remote subkeys url name force).fs.isFile
            (cachePathOf (m.ensure fs remote subkeys url name force).path) && !force
         then
            ⟨((m.ensure fs remote subkeys url name force).fs.getFile
                (cachePathOf (m.ensure fs remote subkeys url name force).path)).getD "",
              (m.ensure fs remote subkeys url name force).fs,
              (m.ensure fs remote subkeys url name force).fetched, false⟩
         else
            ⟨parse (((m.ensure fs remote subkeys url name force).fs.getFile
                (m.ensure fs remote subkeys url name force).path).getD ""),
              (m.ensure fs remote subkeys url name force).fs.setFile
                (cachePathOf (m.ensure fs remote subkeys url name force).path)
                (parse (((m.ensure fs remote subkeys url name force).fs.getFile
                  (m.ensure fs remote subkeys url name force).path).getD "")),
              (m.ensure fs remote subkeys url name force).fetched, true⟩) := rfl
  rw [ensure_path] at e0
  have hne : cachePathOf (m.ensureTarget subkeys url name)
      ≠ m.ensureTarget subkeys url name := cachePathOf_ne _
  have hcf : (m.ensure fs remote subkeys url name force).fs.getFile
      (cachePathOf (m.ensureTarget subkeys url name))
      = fs.getFile (cachePathOf (m.ensureTarget subkeys url name)) :=
    ensure_getFile_ne m fs remote subkeys url name force hne
  have hci : (m.ensure fs remote subkeys url name force).fs.isFile
      (cachePathOf (m.ensureTarget subkeys url name))
      = fs.isFile (cachePathOf (m.ensureTarget subkeys url name)) := by
    unfold FS.isFile
    rw [hcf]
  rw [hci, hcf] at e0
  refine ⟨cachePathOf_eq _, ?_, ?_, ?_⟩
  · rw [e0]
    cases fs.isFile (cachePathOf (m.ensureTarget subkeys url name)) && !force <;> rfl
  · rw [e0]
    cases hb : fs.isFile (cachePathOf (m.ensureTarget subkeys url name)) && !force
    · show ((m.ensure fs remote subkeys url name force).fs.setFile _ _).isFile _ = true
      unfold FS.isFile
      rw [FS.getFile_setFile_self]
      rfl
    · show (m.ensure fs remote subkeys url name force).fs.isFile _ = true
      rw [hci]
      simp only [Bool.and_eq_true] at hb
      exact hb.1
  · rw [e0]
    cases hb : fs.isFile (cachePathOf (m.ensureTarget subkeys url name)) && !force
    · show ((m.ensure fs remote subkeys url name force).fs.setFile _ _).getFile _
          = some _
      exact FS.getFile_setFile_self _ _ _
    · exact hcf

/-- Claim C7: dumping an object with a dump adapter and loading the same
module path with the matching load adapter returns the original object,
for JSON, pickle and table objects.  The serialisation libraries are
abstracted as encoder/decoder parameters whose decode inverts encode (for
tables, reading back with the tab separator that dump_df defaults to);
the repository's contribution — both adapters resolving the same path and
passing the object through unaltered — is what is proved. -/
theorem C7_dump_load_roundtrip {α β Df : Type} (m : Module) (fs1 fs2 fs3 : FS)
    (sk1 sk2 sk3 : List String) (n1 n2 n3 : String)
    (jenc : α → String) (jdec : String → Option α) (a : α)
    (penc : β → String) (pdec : String → Option β) (b : β)
    (W : Df → String → Bool → String) (R : String → String → Df) (d : Df)
    (hj : jdec (jenc a) = some a) (hp : pdec (penc b) = some b)
    (hd : R (W d "\t" false) "\t" = d) :
    (Module.load_json m (m.dump_json fs1 jenc sk1 n1 a) jdec sk1 n1).1
        = Except.ok a
  ∧ (Module.load_pickle m (m.dump_pickle fs2 penc sk2 n2 b) pdec sk2 n2).1
        = Except.ok b
  ∧ (Module.load_df m (m.dump_df fs3 W sk3 n3 d "\t" false none) R sk3 n3 none).1
        = Except.ok d := by
  refine ⟨?_, ?_, ?_⟩
  · have e1 : m.dump_json fs1 jenc sk1 n1 a
        = (m.join fs1 sk1 (some n1) true).2.setFile
            ((m.join fs1 sk1 (some n1) true).1) (jenc a) := rfl
    simp only [Module.load_json]
    rw [openFile_eval, e1, dump_getFile_self]
    simp [hj]
  · have e2 : m.dump_pickle fs2 penc sk2 n2 b
        = (m.join fs2 sk2 (some n2) false).2.setFile
            ((m.join fs2 sk2 (some n2) false).1) (penc b) := rfl
    simp only [Module.load_pickle]
    rw [openFile_eval, e2, dump_getFile_self]
    simp [hp]
  · have e3 : m.dump_df fs3 W sk3 n3 d "\t" false none
        = (m.join fs3 sk3 (some n3) true).2.setFile
            ((m.join fs3 sk3 (some n3) true).1) (W d "\t" false) := rfl
    simp only [Module.load_df]
    rw [openFile_eval, e3, dump_getFile_self]
    simp [_clean_csv_kwargs, hd]

/-- Claim C7 witness at concrete inputs (identity encoders/decoders). -/
theorem C7_dump_load_roundtrip_w :
    (Module.load_json (⟨["h"]⟩ : Module)
        (Module.dump_json ⟨["h"]⟩ ⟨[["h"]], []⟩ (fun s : String => s) [] "f.json" "v")
        some [] "f.json").1 = Except.ok "v" :=
  (C7_dump_load_roundtrip ⟨["h"]⟩ ⟨[["h"]], []⟩ ⟨[["h"]], []⟩ ⟨[["h"]], []⟩
    [] [] [] "f.json" "f.pkl" "f.tsv" (fun s => s) some "v" (fun s => s) some "w"
    (fun s _ _ => s) (fun c _ => c) "tbl" rfl rfl rfl).1

/-- Claim C10: when the pass-through reader options do not specify a
separator, the cleaned options hand the readers the tab character (for
ensure_csv, load_df, ensure_tar_df and ensure_zip_df omitting the options
equals passing an explicit tab separator); dump_df's Python defaults
(separator tab, index omitted) write the table with tab and no index, so
the default dump followed by the default load reads the table back. -/
theorem C10_tab_default {Df : Type} (m : Module) (fs : FS) (remote : String → String)
    (R : String → String → Df) (Rt Rz : String → String → String → Df)
    (W : Df → String → Bool → String) (d : Df) (subkeys : List String)
    (url inner nm2 : String) (name : Option String) (force : Bool)
    (hd : R (W d "\t" false) "\t" = d) :
    (_clean_csv_kwargs none).sep = "\t"
  ∧ (∀ kw : ReadCsvKwargs, kw.sep = none → (_clean_csv_kwargs (some kw)).sep = "\t")
  ∧ m.ensure_csv fs remote R subkeys url name force none
      = m.ensure_csv fs remote R subkeys url name force (some ⟨some "\t"⟩)
  ∧ m.load_df fs R subkeys nm2 none = m.load_df fs R subkeys nm2 (some ⟨some "\t"⟩)
  ∧ m.ensure_tar_df fs remote Rt subkeys url inner name force none
      = m.ensure_tar_df fs remote Rt subkeys url inner name force (some ⟨some "\t"⟩)
  ∧ m.ensure_zip_df fs remote Rz subkeys url inner name force none
      = m.ensure_zip_df fs remote Rz subkeys url inner name force (some ⟨some "\t"⟩)
  ∧ (m.dump_df fs W subkeys nm2 d "\t" false none).getFile
      (joinName (m.base ++ subkeys) (some nm2)) = some (W d "\t" false)
  ∧ (m.load_df (m.dump_df fs W subkeys nm2 d "\t" false none) R subkeys nm2 none).1
      = Except.ok d := by
  have e3 : m.dump_df fs W subkeys nm2 d "\t" false none
      = (m.join fs subkeys (some nm2) true).2.setFile
          ((m.join fs subkeys (some nm2) true).1) (W d "\t" false) := rfl
  refine ⟨rfl, ?_, rfl, rfl, rfl, rfl, ?_, ?_⟩
  · intro kw h
    obtain ⟨s⟩ := kw
    have h2 : s = none := h
    subst h2
    rfl
  · rw [e3]
    exact dump_getFile_self m fs subkeys nm2 (W d "\t" false) true
  · simp only [Module.load_df]
    rw [openFile_eval, e3, dump_getFile_self]
    simp [_clean_csv_kwargs, hd]

/-- Claim C10 witness at concrete inputs. -/
theorem C10_tab_default_w :
    (_clean_csv_kwargs (some ⟨none⟩)).sep = "\t"
  ∧ (Module.load_df (⟨["h"]⟩ : Module)
        (Module.dump_df ⟨["h"]⟩ ⟨[["h"]], []⟩ (fun s _ _ => s) [] "t.tsv" "tbl"
          "\t" false none)
        (fun c _ => c) [] "t.tsv" none).1 = Except.ok "tbl" :=
  ⟨(C10_tab_default (⟨["h"]⟩ : Module) ⟨[["h"]], []⟩ (fun _ => "") (fun c _ => c)
      (fun c _ _ => c) (fun c _ _ => c) (fun s _ _ => s) "tbl" [] "u" "i" "t.tsv"
      none false rfl).2.1 ⟨none⟩ rfl,
   (C10_tab_default (⟨["h"]⟩ : Module) ⟨[["h"]], []⟩ (fun _ => "") (fun c _ => c)
      (fun c _ _ => c) (fun c _ _ => c) (fun s _ _ => s) "tbl" [] "u" "i" "t.tsv"
      none false rfl).2.2.2.2.2.2.2⟩

end Pystow
